import Mathlib

/-!
Verification development for the storybridge backend.

The graph store is modelled as an explicit value: nodes carry a globally
unique internal identity (`nid`, mirroring the store's `id(n)`), a label
set, the application-level `id` property and a `name` property.  Edges
carry an internal identity, a type string, directed endpoints and the
optional `storyId` property written on SHARED_WITH edges.

Cypher variable-length pattern matching (`-[*]-`, `-[r:KNOWS|SHARED_WITH*]-`)
is embedded as the set of nonempty sequences of pairwise-distinct edges of
the graph that chain the two endpoint nodes when traversed in either
direction, and `shortestPath` as the minimum-length such sequence.
-/

namespace StoryBridge

structure Node where
  nid : Nat
  labels : List String
  idProp : String
  name : String
deriving DecidableEq, Repr

structure Edge where
  eid : Nat
  etype : String
  src : Nat
  dst : Nat
  storyTag : Option String
deriving DecidableEq, Repr

structure Graph where
  nodes : List Node
  edges : List Edge
  nextEid : Nat
deriving DecidableEq, Repr

/-- Undirected traversal of one relationship: the endpoint opposite `n`. -/
def Edge.other (e : Edge) (n : Nat) : Option Nat :=
  if e.src = n then some e.dst else if e.dst = n then some e.src else none

/-- A sequence of edges chains `s` to `t` when each edge is incident to the
current node and hands over its opposite endpoint. -/
def chainB (s : Nat) : List Edge → Nat → Bool
  | [], t => s == t
  | e :: es, t =>
    match e.other s with
    | some k => chainB k es t
    | none => false

/-- The Cypher pattern check for one candidate edge sequence: nonempty
(`*` is `*1..`), all edges pass the relationship filter of the pattern,
and the sequence chains source to target. -/
def pathOK (f : Edge → Bool) (s t : Nat) (es : List Edge) : Bool :=
  !es.isEmpty && es.all f && chainB s es t

/-- All chains of pairwise-distinct edges starting at `s` drawn from
`avail`, of length at most `fuel`.  A match of a variable-length pattern
never repeats a relationship, so `fuel = avail.length` enumerates every
match. -/
def chainsFrom (avail : List Edge) (s : Nat) : Nat → List (List Edge)
  | 0 => [[]]
  | fuel + 1 =>
    [[]] ++ (avail.filter (fun e => (e.other s).isSome)).flatMap
      (fun e => (chainsFrom (avail.erase e) ((e.other s).getD 0) fuel).map (e :: ·))

/-- All candidate edge sequences of the graph from source `s`. -/
def allSeqs (g : Graph) (s : Nat) : List (List Edge) :=
  chainsFrom g.edges s g.edges.length

/-- All matches of a variable-length undirected pattern between two bound
nodes, under a relationship filter. -/
def validPaths (g : Graph) (f : Edge → Bool) (s t : Nat) : List (List Edge) :=
  (allSeqs g s).filter (pathOK f s t)

/-- `shortestPath`: a minimum-length match, if any. -/
def shortestPath (g : Graph) (f : Edge → Bool) (s t : Nat) : Option (List Edge) :=
  (validPaths g f s t).argmin List.length

/-- `length(shortestPath(...))`. -/
def shortestPathLen (g : Graph) (f : Edge → Bool) (s t : Nat) : Option Nat :=
  (shortestPath g f s t).map List.length

/-- `MATCH (u:User {id: $uid})` resolved to the first matching node. -/
def findUser (g : Graph) (uid : String) : Option Node :=
  g.nodes.find? (fun n => n.labels.contains "User" && n.idProp == uid)

/-- `MATCH (s:Story {id: $sid})` resolved to the first matching node. -/
def findStory (g : Graph) (sid : String) : Option Node :=
  g.nodes.find? (fun n => n.labels.contains "Story" && n.idProp == sid)

/-- `neo4jService.findShortestPath`: `MATCH path = shortestPath((source:User
{id: $sourceId})-[*]-(target:User {id: $targetId})) RETURN path` — note the
relationship pattern `[*]` places no restriction on the edge type. -/
def findShortestPath (g : Graph) (sourceId targetId : String) :
    Option (List Edge) :=
  match findUser g sourceId, findUser g targetId with
  | some s, some t => shortestPath g (fun _ => true) s.nid t.nid
  | _, _ => none

/-- Type restriction of the share-scoring path queries:
`[r:KNOWS|SHARED_WITH*]`. -/
def typeOK (e : Edge) : Bool :=
  e.etype == "KNOWS" || e.etype == "SHARED_WITH"

/-- Relationship filter of the before-share query: type restricted and
`NONE(rel IN r WHERE rel.storyId = $storyId)`. -/
def beforeFilter (sid : String) (e : Edge) : Bool :=
  typeOK e && !(e.storyTag == some sid)

/-- Relationship filter of the after-share query: type restricted only. -/
def afterFilter (e : Edge) : Bool := typeOK e

/-- Any path found by `shortestPath` is one of the pattern's matches. -/
theorem shortestPath_mem {g : Graph} {f : Edge → Bool} {s t : Nat}
    {es : List Edge} (h : shortestPath g f s t = some es) :
    es ∈ validPaths g f s t := by
  exact List.argmin_mem (Option.mem_def.mpr h)

/-- Matched edge sequences are nonempty: the `*` pattern is `*1..`. -/
theorem validPaths_ne_nil {g : Graph} {f : Edge → Bool} {s t : Nat}
    {es : List Edge} (h : es ∈ validPaths g f s t) : es ≠ [] := by
  have h' := List.of_mem_filter h
  intro hnil
  subst hnil
  simp [pathOK] at h'

/-- `shortestPath` never reports a zero-length path. -/
theorem shortestPathLen_ne_some_zero (g : Graph) (f : Edge → Bool)
    (s t : Nat) : shortestPathLen g f s t ≠ some 0 := by
  intro h
  unfold shortestPathLen at h
  cases hsp : shortestPath g f s t with
  | none => rw [hsp] at h; simp at h
  | some es =>
    rw [hsp] at h
    simp at h
    have := validPaths_ne_nil (shortestPath_mem hsp)
    exact this h

/-- Restricting the relationship filter further never adds matches. -/
theorem validPaths_mono {f1 f2 : Edge → Bool}
    (hf : ∀ e, f1 e = true → f2 e = true) {g : Graph} {s t : Nat}
    {es : List Edge} (h : es ∈ validPaths g f1 s t) :
    es ∈ validPaths g f2 s t := by
  rcases List.mem_filter.mp h with ⟨hmem, hok⟩
  refine List.mem_filter.mpr ⟨hmem, ?_⟩
  unfold pathOK at hok ⊢
  simp only [Bool.and_eq_true] at hok ⊢
  refine ⟨⟨hok.1.1, ?_⟩, hok.2⟩
  exact List.all_eq_true.mpr fun e he => hf e (List.all_eq_true.mp hok.1.2 e he)

/-- The before-share filter refines the after-share filter. -/
theorem beforeFilter_le_afterFilter (sid : String) (e : Edge)
    (h : beforeFilter sid e = true) : afterFilter e = true := by
  unfold beforeFilter at h
  unfold afterFilter
  simp only [Bool.and_eq_true] at h
  exact h.1

/-- C6: excluding SHARED_WITH edges tagged with a story can only lengthen
the shortest path — whenever the tag-excluded search finds a path of
length `L`, the unrestricted (type-filtered only) search finds one of
length at most `L`. -/
theorem excluded_ge_unrestricted (g : Graph) (sid : String) (s t : Nat)
    (L : Nat) (h : shortestPathLen g (beforeFilter sid) s t = some L) :
    ∃ L', shortestPathLen g afterFilter s t = some L' ∧ L' ≤ L := by
  unfold shortestPathLen at h
  cases hsp : shortestPath g (beforeFilter sid) s t with
  | none => rw [hsp] at h; simp at h
  | some es =>
    rw [hsp] at h
    simp only [Option.map_some', Option.some.injEq] at h
    have hmem : es ∈ validPaths g afterFilter s t :=
      validPaths_mono (beforeFilter_le_afterFilter sid) (shortestPath_mem hsp)
    cases hsp2 : shortestPath g afterFilter s t with
    | none =>
      unfold shortestPath at hsp2
      rw [List.argmin_eq_none] at hsp2
      rw [hsp2] at hmem
      exact absurd hmem (List.not_mem_nil es)
    | some es' =>
      refine ⟨es'.length, by simp [shortestPathLen, hsp2], ?_⟩
      have hle := List.le_of_mem_argmin hmem (Option.mem_def.mpr hsp2)
      omega

/-- Two-user graph with a single KNOWS edge, used as witness data. -/
def eKnows12 : Edge := ⟨1, "KNOWS", 1, 2, none⟩

def gTwoUsers : Graph :=
  ⟨[⟨1, ["User"], "A", "Alice"⟩, ⟨2, ["User"], "B", "Bob"⟩], [eKnows12], 2⟩

/-- C6 witness: on `gTwoUsers` the tag-excluded search finds a length-1
path, and the unrestricted one is no longer. -/
theorem excluded_ge_unrestricted_witness :
    ∃ L', shortestPathLen gTwoUsers afterFilter 1 2 = some L' ∧ L' ≤ 1 :=
  excluded_ge_unrestricted gTwoUsers "X" 1 2 1 (by decide)

/-- C4 (amended): in the share-scoring path computations every edge of
every matched path is a KNOWS or SHARED_WITH edge (the pattern is
`[r:KNOWS|SHARED_WITH*]`); paths of `findShortestPath`, whose pattern is
the unrestricted `[*]`, are not so constrained. -/
theorem shareQuery_paths_typed (g : Graph) (sid : String) (s t : Nat)
    (f : Edge → Bool) (hf : f = beforeFilter sid ∨ f = afterFilter)
    (es : List Edge) (h : es ∈ validPaths g f s t) :
    ∀ e ∈ es, e.etype = "KNOWS" ∨ e.etype = "SHARED_WITH" := by
  intro e he
  have hok := List.of_mem_filter h
  unfold pathOK at hok
  simp only [Bool.and_eq_true] at hok
  have hall := List.all_eq_true.mp hok.1.2 e he
  have htype : typeOK e = true := by
    rcases hf with hf | hf
    · rw [hf] at hall
      unfold beforeFilter at hall
      simp only [Bool.and_eq_true] at hall
      exact hall.1
    · rw [hf] at hall
      exact hall
  unfold typeOK at htype
  simp only [Bool.or_eq_true] at htype
  rcases htype with h' | h'
  · exact Or.inl (by simpa using h')
  · exact Or.inr (by simpa using h')

/-- C4 witness: the single KNOWS edge of `gTwoUsers` forms a valid match
of the type-restricted pattern, and its type is indeed KNOWS. -/
theorem shareQuery_paths_typed_witness :
    eKnows12.etype = "KNOWS" ∨ eKnows12.etype = "SHARED_WITH" :=
  shareQuery_paths_typed gTwoUsers "X" 1 2 (beforeFilter "X") (Or.inl rfl)
    [eKnows12] (by decide) eKnows12 (by decide)

/-- Graph refuting C4 as stated: `findShortestPath` runs over edges of
every kind, so a path between two users can pass through a story via
AUTHORED and SHARED edges. -/
def eAuth : Edge := ⟨1, "AUTHORED", 1, 2, none⟩

def eShared : Edge := ⟨2, "SHARED", 3, 2, none⟩

def gStoryBridgePath : Graph :=
  ⟨[⟨1, ["User"], "A", "Alice"⟩, ⟨2, ["Story"], "S", "StoryS"⟩,
    ⟨3, ["User"], "B", "Bob"⟩], [eAuth, eShared], 3⟩

/-- C4 counterexample: on `gStoryBridgePath` the path returned by
`findShortestPath` between users A and B consists of an AUTHORED and a
SHARED edge — edge kinds the claim says never appear. -/
theorem findShortestPath_returns_authored :
    findShortestPath gStoryBridgePath "A" "B" = some [eAuth, eShared] ∧
    eAuth.etype = "AUTHORED" ∧ eShared.etype = "SHARED" := by
  refine ⟨by decide, rfl, rfl⟩

/-- C5 (amended): a self-path query never returns a length-0 empty path:
the variable-length pattern requires at least one relationship, so
`findShortestPath(A, A)` yields either a cycle of length at least 1 or no
result at all. -/
theorem selfPath_nonempty (g : Graph) (a : String) (es : List Edge)
    (h : findShortestPath g a a = some es) : 1 ≤ es.length := by
  unfold findShortestPath at h
  cases hs : findUser g a with
  | none => rw [hs] at h; exact absurd h (by simp)
  | some s =>
    rw [hs] at h
    have hne := validPaths_ne_nil (shortestPath_mem h)
    cases es with
    | nil => exact absurd rfl hne
    | cons x xs => simp

/-- One isolated user. -/
def gLoneUser : Graph := ⟨[⟨1, ["User"], "A", "Alice"⟩], [], 1⟩

/-- C5 counterexample: the user A exists, yet `findShortestPath(A, A)`
returns no path at all — not a length-0 empty path as claimed. -/
theorem selfPath_no_result :
    (findUser gLoneUser "A").isSome = true ∧
    findShortestPath gLoneUser "A" "A" = none := by
  exact ⟨rfl, by decide⟩

/-- Two users connected by a KNOWS edge in each direction (the shape the
demo seeder creates for mutual associations). -/
def eKnowsBack : Edge := ⟨2, "KNOWS", 2, 1, none⟩

def gMutualKnows : Graph :=
  ⟨[⟨1, ["User"], "A", "Alice"⟩, ⟨2, ["User"], "B", "Bob"⟩],
   [eKnows12, eKnowsBack], 3⟩

/-- C5 witness: on `gMutualKnows` the self-path query does return a path
(the two-edge cycle through B), and its length is at least 1. -/
theorem selfPath_nonempty_witness :
    findShortestPath gMutualKnows "A" "A" = some [eKnows12, eKnowsBack] ∧
    1 ≤ [eKnows12, eKnowsBack].length :=
  ⟨by decide, selfPath_nonempty gMutualKnows "A" [eKnows12, eKnowsBack]
    (by decide)⟩

/-! ### Pagination parameter handling

`executeQuery` converts any parameter whose key mentions `limit` or `skip`
with `parseInt(params[key]) || 0`; `getUsers` first applies a bare
`parseInt`, `getStories` first applies `parseInt(skip) || 0` and
`parseInt(limit) || 50`.  JavaScript values relevant to that pipeline are
embedded as `JsVal`; `parseInt` returns NaN (here `none`) on non-numeric
input, and `x || d` falls back to `d` exactly when `x` is falsy (NaN or
0). -/

inductive JsVal where
  | num : Int → JsVal
  | nan : JsVal
  | str : String → JsVal
  | undef : JsVal
deriving DecidableEq, Repr

/-- The maximal leading run of decimal digits. -/
def leadingDigits : List Char → List Char
  | [] => []
  | c :: cs => if c.isDigit then c :: leadingDigits cs else []

def digitsToNat (cs : List Char) : Nat :=
  cs.foldl (fun acc c => acc * 10 + (c.toNat - 48)) 0

/-- `parseInt` on a string: optional sign followed by leading digits;
no digits means NaN. -/
def parseIntStr (s : String) : Option Int :=
  match s.toList with
  | '-' :: rest =>
    let ds := leadingDigits rest
    if ds.isEmpty then none else some (-(digitsToNat ds : Int))
  | '+' :: rest =>
    let ds := leadingDigits rest
    if ds.isEmpty then none else some (digitsToNat ds : Int)
  | cs =>
    let ds := leadingDigits cs
    if ds.isEmpty then none else some (digitsToNat ds : Int)

/-- `parseInt` on a JavaScript value (`none` models NaN). -/
def parseIntJs : JsVal → Option Int
  | .num n => some n
  | .nan => none
  | .undef => none
  | .str s => parseIntStr s

/-- `x || d` on an integer-or-NaN left operand: NaN and 0 are falsy. -/
def jsOrInt (v : Option Int) (d : Int) : Int :=
  match v with
  | some n => if n = 0 then d else n
  | none => d

/-- Re-wrap a `parseInt` result as a JavaScript value. -/
def jsParseIntVal (v : JsVal) : JsVal :=
  match parseIntJs v with
  | some n => .num n
  | none => .nan

/-- `executeQuery`'s processing of a `skip`/`limit` parameter:
`parseInt(params[key]) || 0`. -/
def executeQueryPagination (v : JsVal) : Int :=
  jsOrInt (parseIntJs v) 0

/-- The skip value reaching the query in `getUsers(skip, limit)`:
the service passes `parseInt(skip)` and `executeQuery` re-processes it. -/
def getUsersSkipUsed (skip : JsVal) : Int :=
  executeQueryPagination (jsParseIntVal skip)

/-- The limit value reaching the query in `getUsers`. -/
def getUsersLimitUsed (limit : JsVal) : Int :=
  executeQueryPagination (jsParseIntVal limit)

/-- The skip value reaching the query in `getStories(skip, limit)`:
`parseInt(skip) || 0`, then `executeQuery`'s processing. -/
def getStoriesSkipUsed (skip : JsVal) : Int :=
  executeQueryPagination (.num (jsOrInt (parseIntJs skip) 0))

/-- The limit value reaching the query in `getStories`:
`parseInt(limit) || 50`, then `executeQuery`'s processing. -/
def getStoriesLimitUsed (limit : JsVal) : Int :=
  executeQueryPagination (.num (jsOrInt (parseIntJs limit) 50))

/-- C3 counterexample: a negative skip reaches the `getUsers` query as the
negative value itself, and a non-numeric limit reaches the `getStories`
query as 50 — in both cases not the claimed 0. -/
theorem pagination_not_clamped :
    getUsersSkipUsed (JsVal.num (-5)) = -5 ∧ (-5 : Int) < 0 ∧
    getStoriesLimitUsed (JsVal.str "abc") = 50 := by
  decide

/-- C3 (amended): non-numeric skip/limit inputs coerce to a fixed default
— 0 everywhere except `getStories`' limit, whose default is 50 — while
negative numeric inputs are not clamped and reach the query unchanged. -/
theorem pagination_coercion (v : JsVal) (n : Int)
    (hv : parseIntJs v = none) (hn : n < 0) :
    getUsersSkipUsed v = 0 ∧ getUsersLimitUsed v = 0 ∧
    getStoriesSkipUsed v = 0 ∧ getStoriesLimitUsed v = 50 ∧
    getUsersSkipUsed (JsVal.num n) = n ∧
    getUsersLimitUsed (JsVal.num n) = n ∧
    getStoriesSkipUsed (JsVal.num n) = n ∧
    getStoriesLimitUsed (JsVal.num n) = n := by
  have hn0 : n ≠ 0 := by omega
  unfold getUsersSkipUsed getUsersLimitUsed getStoriesSkipUsed
    getStoriesLimitUsed executeQueryPagination jsParseIntVal
  rw [hv]
  simp [parseIntJs, jsOrInt, hn0]

/-- C3 witness: the amended statement at the string input and the value
from the counterexample. -/
theorem pagination_coercion_witness :
    getUsersSkipUsed (JsVal.str "abc") = 0 ∧
    getUsersLimitUsed (JsVal.str "abc") = 0 ∧
    getStoriesSkipUsed (JsVal.str "abc") = 0 ∧
    getStoriesLimitUsed (JsVal.str "abc") = 50 ∧
    getUsersSkipUsed (JsVal.num (-5)) = -5 ∧
    getUsersLimitUsed (JsVal.num (-5)) = -5 ∧
    getStoriesSkipUsed (JsVal.num (-5)) = -5 ∧
    getStoriesLimitUsed (JsVal.num (-5)) = -5 :=
  pagination_coercion (JsVal.str "abc") (-5) (by decide) (by decide)

/-! ### The share protocol

`neo4jService.shareStory` is a single Cypher statement that matches story,
sender and receiver, requires `sender <> receiver`, and — only when all
matches succeed — creates the SHARED and SHARED_WITH edges.  The story
controller's `shareStory` handler validates the presence of the three
identifiers, checks that story, sender and receiver exist, runs the write,
then computes the tag-excluded and unrestricted shortest paths between the
story's author and the receiver (both on the post-write graph) and derives
`pathReduction` and `rewardPoints` from them. -/

/-- Whether internal node id `n` is a `User` node of the graph. -/
def isUserNid (g : Graph) (n : Nat) : Bool :=
  g.nodes.any (fun nd => nd.nid == n && nd.labels.contains "User")

/-- `MATCH (author:User)-[:AUTHORED]->(s)` resolved to the author's
internal id (first match). -/
def findAuthor (g : Graph) (storyNid : Nat) : Option Nat :=
  (g.edges.find? (fun e =>
    e.etype == "AUTHORED" && e.dst == storyNid && isUserNid g e.src)).map
      (fun e => e.src)

/-- `neo4jService.shareStory`: the write side of the share statement.
When story, sender and receiver match and `sender <> receiver`, a SHARED
edge (sender to story) and a SHARED_WITH edge tagged with the story id
(sender to receiver) are appended; otherwise the statement matches
nothing and writes nothing. -/
def shareMutate (g : Graph) (storyId senderId receiverId : String) :
    Graph :=
  match findStory g storyId, findUser g senderId, findUser g receiverId with
  | some st, some snd, some rcv =>
    if snd.nid ≠ rcv.nid then
      { g with
        edges := g.edges ++
          [⟨g.nextEid, "SHARED", snd.nid, st.nid, none⟩,
           ⟨g.nextEid + 1, "SHARED_WITH", snd.nid, rcv.nid, some storyId⟩],
        nextEid := g.nextEid + 2 }
    else g
  | _, _, _ => g

/-- The controller's path probe: match the story's author and the
receiver, then the length of the shortest path between them under the
given relationship filter (no row when author or receiver is missing or
no path exists). -/
def pathQueryLen (g : Graph) (storyId receiverId : String)
    (f : Edge → Bool) : Option Nat :=
  match findStory g storyId with
  | none => none
  | some st =>
    match findAuthor g st.nid, findUser g receiverId with
    | some author, some rcv => shortestPathLen g f author rcv.nid
    | _, _ => none

/-- Length of the tag-excluded ("before") path probe, run after the
write, as the controller does. -/
def pathBeforeLen (g : Graph) (storyId senderId receiverId : String) :
    Option Nat :=
  pathQueryLen (shareMutate g storyId senderId receiverId) storyId
    receiverId (beforeFilter storyId)

/-- Length of the unrestricted ("after") path probe, run after the
write. -/
def pathAfterLen (g : Graph) (storyId senderId receiverId : String) :
    Option Nat :=
  pathQueryLen (shareMutate g storyId senderId receiverId) storyId
    receiverId afterFilter

/-- The controller's reward block: both probes must have produced a row
with a truthy (nonzero) `pathLength`; then `pathReduction` is their
difference and `rewardPoints` is `pathReduction * 10` when positive. -/
def computeReward (before after : Option Nat) : Int × Int :=
  match before, after with
  | some b, some a =>
    if b != 0 && a != 0 then
      let red : Int := (b : Int) - (a : Int)
      (red, if red > 0 then red * 10 else 0)
    else (0, 0)
  | _, _ => (0, 0)

inductive ShareError where
  | badRequest : String → ShareError
  | notFound : String → ShareError
deriving DecidableEq, Repr

structure ShareOutcome where
  db : Graph
  pathReduction : Int
  rewardPoints : Int
deriving DecidableEq, Repr

/-- The story controller's `shareStory` handler. -/
def shareStoryController (g : Graph)
    (storyId senderId receiverId : String) :
    Except ShareError ShareOutcome :=
  if storyId = "" ∨ senderId = "" ∨ receiverId = "" then
    .error (.badRequest "StoryId, senderId, and receiverId are required")
  else
    match findStory g storyId with
    | none => .error (.notFound "Story not found")
    | some _ =>
      match findUser g senderId with
      | none => .error (.notFound "Sender not found")
      | some _ =>
        match findUser g receiverId with
        | none => .error (.notFound "Receiver not found")
        | some _ =>
          let g' := shareMutate g storyId senderId receiverId
          let rw := computeReward
            (pathQueryLen g' storyId receiverId (beforeFilter storyId))
            (pathQueryLen g' storyId receiverId afterFilter)
          .ok ⟨g', rw.1, rw.2⟩

/-- The controller's path probes never report a zero-length path: the
variable-length pattern of the probe requires at least one edge. -/
theorem pathQueryLen_ne_some_zero (g : Graph) (storyId receiverId : String)
    (f : Edge → Bool) : pathQueryLen g storyId receiverId f ≠ some 0 := by
  unfold pathQueryLen
  split
  · simp
  · split
    · exact shortestPathLen_ne_some_zero _ _ _ _
    · simp

theorem pathBeforeLen_ne_some_zero (g : Graph) (a b c : String) :
    pathBeforeLen g a b c ≠ some 0 :=
  pathQueryLen_ne_some_zero _ _ _ _

theorem pathAfterLen_ne_some_zero (g : Graph) (a b c : String) :
    pathAfterLen g a b c ≠ some 0 :=
  pathQueryLen_ne_some_zero _ _ _ _

/-- The reward block never produces negative points. -/
theorem computeReward_snd_nonneg (b a : Option Nat) :
    0 ≤ (computeReward b a).2 := by
  unfold computeReward
  rcases b with _ | bn <;> rcases a with _ | an <;> simp
  split
  · split
    · omega
    · simp
  · simp

/-- The reward block on two present, nonzero lengths. -/
theorem computeReward_some (bn an : Nat) (hb : bn ≠ 0) (ha : an ≠ 0) :
    (computeReward (some bn) (some an)).1 = (bn : Int) - (an : Int) ∧
    (computeReward (some bn) (some an)).2 =
      10 * max 0 ((bn : Int) - (an : Int)) := by
  have hba : (bn != 0 && an != 0) = true := by simp [hb, ha]
  unfold computeReward
  simp only [hba, if_true]
  constructor
  · trivial
  · show (if ((bn : Int) - (an : Int)) > 0
        then ((bn : Int) - (an : Int)) * 10 else 0) = _
    split
    · rename_i h
      rw [max_eq_right (by omega)]
      ring
    · rename_i h
      rw [max_eq_left (by omega)]
      simp

/-- The reward block when either probe produced no row. -/
theorem computeReward_none (b a : Option Nat) (h : b = none ∨ a = none) :
    computeReward b a = (0, 0) := by
  unfold computeReward
  rcases h with h | h <;> subst h
  · simp
  · rcases b with _ | bn <;> simp

/-- C2: for a share call in which story, sender and receiver all exist
and sender and receiver are distinct nodes, the call succeeds and:
`rewardPoints = 10 * max 0 (before - after)` (hence nonnegative) whenever
both probes return a length, `pathReduction` is exactly their difference
in that case, and both quantities are 0 when either probe is empty. -/
theorem reward_formula (g : Graph) (sid sndId rcvId : String)
    (hsid : sid ≠ "") (hsndId : sndId ≠ "") (hrcvId : rcvId ≠ "")
    (st : Node) (hst : findStory g sid = some st)
    (sn : Node) (hs : findUser g sndId = some sn)
    (rc : Node) (hr : findUser g rcvId = some rc)
    (_hne : sn.nid ≠ rc.nid) :
    ∃ out, shareStoryController g sid sndId rcvId = Except.ok out ∧
      0 ≤ out.rewardPoints ∧
      (∀ bn an, pathBeforeLen g sid sndId rcvId = some bn →
        pathAfterLen g sid sndId rcvId = some an →
        out.pathReduction = (bn : Int) - (an : Int) ∧
        out.rewardPoints = 10 * max 0 ((bn : Int) - (an : Int))) ∧
      ((pathBeforeLen g sid sndId rcvId = none ∨
        pathAfterLen g sid sndId rcvId = none) →
        out.pathReduction = 0 ∧ out.rewardPoints = 0) := by
  have hcond : ¬(sid = "" ∨ sndId = "" ∨ rcvId = "") := by
    push_neg
    exact ⟨hsid, hsndId, hrcvId⟩
  refine ⟨⟨shareMutate g sid sndId rcvId,
    (computeReward (pathBeforeLen g sid sndId rcvId)
      (pathAfterLen g sid sndId rcvId)).1,
    (computeReward (pathBeforeLen g sid sndId rcvId)
      (pathAfterLen g sid sndId rcvId)).2⟩, ?_, ?_, ?_, ?_⟩
  · unfold shareStoryController
    rw [if_neg hcond, hst, hs, hr]
    rfl
  · exact computeReward_snd_nonneg _ _
  · intro bn an hb ha
    have hbn : bn ≠ 0 := by
      intro h0
      subst h0
      exact pathBeforeLen_ne_some_zero g sid sndId rcvId hb
    have han : an ≠ 0 := by
      intro h0
      subst h0
      exact pathAfterLen_ne_some_zero g sid sndId rcvId ha
    simp only [hb, ha]
    exact computeReward_some bn an hbn han
  · intro h
    rw [computeReward_none _ _ h]
    exact ⟨rfl, rfl⟩

/-- Concrete entities for the share scenarios. -/
def nAlice : Node := ⟨1, ["User"], "A", "Alice"⟩

def nBob : Node := ⟨2, ["User"], "B", "Bob"⟩

def nDara : Node := ⟨3, ["User"], "D", "Dara"⟩

def nStoryS : Node := ⟨4, ["Story"], "S", "StoryS"⟩

def eAuthS : Edge := ⟨1, "AUTHORED", 1, 4, none⟩

def eKnAD : Edge := ⟨2, "KNOWS", 1, 3, none⟩

def eKnDB : Edge := ⟨3, "KNOWS", 3, 2, none⟩

def ePriorShare : Edge := ⟨4, "SHARED_WITH", 1, 2, some "S"⟩

/-- The re-share scenario of the spec: A knows D, D knows B, story S is
authored by A and was already shared from A to B once. -/
def gReshare : Graph :=
  ⟨[nAlice, nBob, nDara, nStoryS], [eAuthS, eKnAD, eKnDB, ePriorShare], 5⟩

/-- C2 witness: the reward formula at the concrete re-share scenario. -/
theorem reward_formula_witness :
    ∃ out, shareStoryController gReshare "S" "A" "B" = Except.ok out ∧
      0 ≤ out.rewardPoints ∧
      (∀ bn an, pathBeforeLen gReshare "S" "A" "B" = some bn →
        pathAfterLen gReshare "S" "A" "B" = some an →
        out.pathReduction = (bn : Int) - (an : Int) ∧
        out.rewardPoints = 10 * max 0 ((bn : Int) - (an : Int))) ∧
      ((pathBeforeLen gReshare "S" "A" "B" = none ∨
        pathAfterLen gReshare "S" "A" "B" = none) →
        out.pathReduction = 0 ∧ out.rewardPoints = 0) :=
  reward_formula gReshare "S" "A" "B" (by decide) (by decide) (by decide)
    nStoryS (by decide) nAlice (by decide) nBob (by decide) (by decide)

/-- A graph where A authored story S and B also exists. -/
def gShareSelf : Graph := ⟨[nAlice, nBob, nStoryS], [eAuthS], 2⟩

/-- C1 counterexample: sharing a story with oneself, with story and user
existing, does not raise a ValidationError — the handler succeeds (and,
as the unchanged `db` component shows, writes nothing). -/
theorem shareSelf_succeeds :
    shareStoryController gShareSelf "S" "A" "A" =
      Except.ok ⟨gShareSelf, 0, 0⟩ := by
  rfl

/-- C1 (amended): when sender equals receiver and story and user exist,
the store-side `WHERE sender <> receiver` suppresses both writes, so no
SHARED or SHARED_WITH edge is created — but no ValidationError is raised
either: the handler completes successfully on the unchanged graph. -/
theorem shareSelf_no_edges (g : Graph) (sid uid : String)
    (hsid : sid ≠ "") (huid : uid ≠ "")
    (st : Node) (hst : findStory g sid = some st)
    (u : Node) (hu : findUser g uid = some u) :
    ∃ out, shareStoryController g sid uid uid = Except.ok out ∧
      out.db = g ∧ out.db.edges = g.edges := by
  have hcond : ¬(sid = "" ∨ uid = "" ∨ uid = "") := by
    push_neg
    exact ⟨hsid, huid, huid⟩
  have hmut : shareMutate g sid uid uid = g := by
    unfold shareMutate
    rw [hst, hu]
    simp
  refine ⟨⟨g,
    (computeReward (pathQueryLen g sid uid (beforeFilter sid))
      (pathQueryLen g sid uid afterFilter)).1,
    (computeReward (pathQueryLen g sid uid (beforeFilter sid))
      (pathQueryLen g sid uid afterFilter)).2⟩, ?_, rfl, rfl⟩
  unfold shareStoryController
  rw [if_neg hcond, hst, hu, hmut]

/-- C1 amended-claim witness at the concrete self-share scenario. -/
theorem shareSelf_no_edges_witness :
    ∃ out, shareStoryController gShareSelf "S" "A" "A" = Except.ok out ∧
      out.db = gShareSelf ∧ out.db.edges = gShareSelf.edges :=
  shareSelf_no_edges gShareSelf "S" "A" (by decide) (by decide)
    nStoryS (by decide) nAlice (by decide)

/-! ### The network formatter

`dataService.formatNetworkForD3` and `dataService.formatPathData` turn
path-shaped records into a node/link structure.  Raw segment endpoints
and relationships are objects with optional `id`, `name`/`type` and
`labels` fields plus an open property bag (whose keys are understood to
be disjoint from the fixed field names).  The `Math.random` placeholder
identifiers for missing ids are embedded as a deterministic fresh-id
counter threaded through the formatting call. -/

structure RawNode where
  id : Option String
  name : Option String
  labels : Option (List String)
  props : List (String × String)
deriving DecidableEq, Repr

structure RawRel where
  id : Option String
  rtype : Option String
  props : List (String × String)
deriving DecidableEq, Repr

structure RawSegment where
  start : Option RawNode
  relationship : Option RawRel
  finish : Option RawNode
deriving DecidableEq, Repr

structure RawPath where
  segments : Option (List RawSegment)
deriving DecidableEq, Repr

structure FmtNode where
  id : String
  name : String
  group : Option String
  labels : Option (List String)
  props : List (String × String)
deriving DecidableEq, Repr

structure FmtLink where
  source : String
  target : String
  ltype : String
  id : String
  props : List (String × String)
deriving DecidableEq, Repr

structure NetData where
  nodesF : Option (List FmtNode)
  linksF : Option (List FmtLink)
  paths : Option (List RawPath)
deriving DecidableEq, Repr

/-- `labels && Array.isArray(labels) ? labels[0] : 'Unknown'` — an empty
present array yields `labels[0] = undefined`. -/
def groupOf (rn : RawNode) : Option String :=
  match rn.labels with
  | some (l :: _) => some l
  | some [] => none
  | none => some "Unknown"

/-- The formatted node for a segment endpoint: the computed `id`, `name`
and `group` fields, with the endpoint's own present fields spread over
them last. -/
def mkFmtNode (key : String) (rn : RawNode) : FmtNode :=
  { id := key, name := rn.name.getD "Unknown", group := groupOf rn,
    labels := rn.labels, props := rn.props }

/-- The formatted link for a segment. -/
def mkLink (startId endId relId : String) (r : RawRel) : FmtLink :=
  { source := startId, target := endId, ltype := r.rtype.getD "Unknown",
    id := relId, props := r.props }

def freshNodeId (k : Nat) : String := "node-fresh-" ++ toString k

def freshRelId (k : Nat) : String := "rel-fresh-" ++ toString k

structure FmtState where
  nodeMap : List (String × FmtNode)
  links : List FmtLink
  counter : Nat
deriving DecidableEq, Repr

/-- `nodeMap.has(k)` / `nodeMap.get(k)` on the insertion-ordered map. -/
def lookupKey (m : List (String × FmtNode)) (k : String) :
    Option (String × FmtNode) :=
  m.find? (fun p => p.1 == k)

def hasKey (m : List (String × FmtNode)) (k : String) : Bool :=
  (lookupKey m k).isSome

/-- `if (!nodeMap.has(k)) nodeMap.set(k, v)`. -/
def insertIfAbsent (m : List (String × FmtNode)) (k : String)
    (v : FmtNode) : List (String × FmtNode) :=
  if hasKey m k then m else m ++ [(k, v)]

/-- Processing of one path segment: skip it unless start, end and
relationship are all present; otherwise resolve (or freshly generate)
the two endpoint ids, register both endpoints if unseen, and append the
link. -/
def processSegment (st : FmtState) (seg : RawSegment) : FmtState :=
  match seg.start, seg.finish, seg.relationship with
  | some s, some e, some r =>
    let sIdC : String × Nat :=
      match s.id with
      | some i => (i, st.counter)
      | none => (freshNodeId st.counter, st.counter + 1)
    let eIdC : String × Nat :=
      match e.id with
      | some i => (i, sIdC.2)
      | none => (freshNodeId sIdC.2, sIdC.2 + 1)
    let m1 := insertIfAbsent st.nodeMap sIdC.1 (mkFmtNode sIdC.1 s)
    let m2 := insertIfAbsent m1 eIdC.1 (mkFmtNode eIdC.1 e)
    let rIdC : String × Nat :=
      match r.id with
      | some i => (i, eIdC.2)
      | none => (freshRelId eIdC.2, eIdC.2 + 1)
    ⟨m2, st.links ++ [mkLink sIdC.1 eIdC.1 rIdC.1 r], rIdC.2⟩
  | _, _, _ => st

def emptyFmtState : FmtState := ⟨[], [], 0⟩

def runSegments (segs : List RawSegment) : FmtState :=
  segs.foldl processSegment emptyFmtState

/-- The segments processed by `formatNetworkForD3`: every segment of
every path that passes the array checks. -/
def segsOf (d : NetData) : List RawSegment :=
  match d.paths with
  | some ps => ps.flatMap (fun p => p.segments.getD [])
  | none => []

/-- `dataService.formatNetworkForD3`. -/
def formatNetworkForD3 : Option NetData → NetData
  | none => { nodesF := some [], linksF := some [], paths := none }
  | some d =>
    if d.nodesF.isSome && d.linksF.isSome then d
    else
      let st := runSegments (segsOf d)
      { nodesF := some (st.nodeMap.map Prod.snd), linksF := some st.links,
        paths := none }

structure PathResult where
  nodes : List FmtNode
  links : List FmtLink
  pathLen : Nat
deriving DecidableEq, Repr

structure PathData where
  path : Option RawPath
  pathLength : Option Nat
deriving DecidableEq, Repr

/-- `dataService.formatPathData`. -/
def formatPathData : Option PathData → PathResult
  | none => ⟨[], [], 0⟩
  | some pd =>
    match pd.path with
    | none => ⟨[], [], 0⟩
    | some p =>
      let segs := p.segments.getD []
      let st := runSegments segs
      ⟨st.nodeMap.map Prod.snd, st.links,
       match pd.pathLength with
       | some n => if n == 0 then segs.length else n
       | none => segs.length⟩

/-- Each map entry's value carries its key as `id`. -/
def MapWF (m : List (String × FmtNode)) : Prop :=
  ∀ p ∈ m, p.2.id = p.1

/-- The endpoints a segment contributes, in processing order. -/
def segOccs (seg : RawSegment) : List RawNode :=
  match seg.start, seg.finish, seg.relationship with
  | some s, some e, some _ => [s, e]
  | _, _, _ => []

/-- The formatted node of an endpoint whose id is present. -/
def mkKeyed (rn : RawNode) : FmtNode := mkFmtNode (rn.id.getD "") rn

theorem lookup_insertIfAbsent (m : List (String × FmtNode)) (k' : String)
    (v : FmtNode) (k : String) :
    lookupKey (insertIfAbsent m k' v) k =
      (lookupKey m k).or (if k' == k then some (k', v) else none) := by
  unfold insertIfAbsent
  by_cases hk : hasKey m k' = true
  · rw [if_pos hk]
    by_cases he : (k' == k) = true
    · have hkk : k' = k := by simpa using he
      subst hkk
      rw [if_pos he]
      unfold hasKey at hk
      exact (Option.or_of_isSome hk).symm
    · rw [if_neg he, Option.or_none]
  · rw [if_neg hk]
    unfold lookupKey
    rw [List.find?_append]
    congr 1
    by_cases he : (k' == k) = true
    · have hfind : List.find? (fun p => p.1 == k) [(k', v)] = some (k', v) :=
        List.find?_cons_of_pos _ he
      rw [hfind, if_pos he]
    · have hfind : List.find? (fun p => p.1 == k) [(k', v)] =
          List.find? (fun p => p.1 == k) [] :=
        List.find?_cons_of_neg _ he
      rw [hfind, if_neg he]
      rfl

theorem mapWF_insert {m : List (String × FmtNode)} (h : MapWF m)
    {k : String} {v : FmtNode} (hv : v.id = k) :
    MapWF (insertIfAbsent m k v) := by
  unfold insertIfAbsent
  split
  · exact h
  · intro p hp
    rcases List.mem_append.mp hp with hp | hp
    · exact h p hp
    · simp only [List.mem_singleton] at hp
      subst hp
      exact hv

theorem mapWF_insert_mk {m : List (String × FmtNode)} (h : MapWF m)
    (k : String) (rn : RawNode) :
    MapWF (insertIfAbsent m k (mkFmtNode k rn)) :=
  mapWF_insert h rfl

theorem hasKey_false_not_mem {m : List (String × FmtNode)} {k : String}
    (h : ¬hasKey m k = true) : k ∉ m.map Prod.fst := by
  intro hmem
  rcases List.mem_map.mp hmem with ⟨p, hp, hpk⟩
  apply h
  unfold hasKey lookupKey
  rw [List.find?_isSome]
  exact ⟨p, hp, by simpa using hpk⟩

theorem keysNodup_insert {m : List (String × FmtNode)}
    (h : (m.map Prod.fst).Nodup) (k : String) (v : FmtNode) :
    ((insertIfAbsent m k v).map Prod.fst).Nodup := by
  unfold insertIfAbsent
  split
  · exact h
  · rename_i hk
    rw [List.map_append, List.nodup_append]
    refine ⟨h, by simp, ?_⟩
    intro a ha hb
    simp only [List.map_cons, List.map_nil, List.mem_singleton] at hb
    subst hb
    exact hasKey_false_not_mem hk ha

theorem hasKey_insertIfAbsent_of (m : List (String × FmtNode))
    (k' : String) (v : FmtNode) (k : String) (h : hasKey m k = true) :
    hasKey (insertIfAbsent m k' v) k = true := by
  unfold hasKey at h ⊢
  rw [lookup_insertIfAbsent, Option.or_of_isSome h]
  exact h

theorem hasKey_insert_self (m : List (String × FmtNode)) (k : String)
    (v : FmtNode) : hasKey (insertIfAbsent m k v) k = true := by
  unfold hasKey
  rw [lookup_insertIfAbsent, if_pos (by simp)]
  cases lookupKey m k <;> simp

/-- One segment's effect on a map lookup: previous entries win, then the
segment's endpoints in order. -/
theorem lookup_processSegment (st : FmtState) (seg : RawSegment)
    (k : String)
    (hids : ∀ rn ∈ segOccs seg, rn.id.isSome = true) :
    lookupKey (processSegment st seg).nodeMap k =
      (lookupKey st.nodeMap k).or
        ((((segOccs seg).map mkKeyed).find? (fun n => n.id == k)).map
          (fun n => (n.id, n))) := by
  rcases seg with ⟨os, orl, oe⟩
  cases os with
  | none => simp [processSegment, segOccs]
  | some s =>
    cases oe with
    | none => cases orl <;> simp [processSegment, segOccs]
    | some e =>
      cases orl with
      | none => simp [processSegment, segOccs]
      | some r =>
        have hs : s.id.isSome = true := by
          apply hids
          simp [segOccs]
        have he : e.id.isSome = true := by
          apply hids
          simp [segOccs]
        obtain ⟨si, hsi⟩ := Option.isSome_iff_exists.mp hs
        obtain ⟨ei, hei⟩ := Option.isSome_iff_exists.mp he
        show lookupKey (insertIfAbsent
            (insertIfAbsent st.nodeMap _ _) _ _) k = _
        rw [lookup_insertIfAbsent, lookup_insertIfAbsent, Option.or_assoc]
        congr 1
        simp only [segOccs, List.map_cons, List.map_nil, mkKeyed, hsi, hei,
          Option.getD_some]
        by_cases h1 : (si == k) = true
        · rw [List.find?_cons_of_pos _ (by simpa [mkFmtNode] using h1)]
          have h1' : si = k := by simpa using h1
          subst h1'
          simp [mkFmtNode, hsi]
        · rw [List.find?_cons_of_neg _ (by simpa [mkFmtNode] using h1)]
          rw [if_neg (by simpa [hsi] using h1), Option.none_or]
          by_cases h2 : (ei == k) = true
          · rw [List.find?_cons_of_pos _ (by simpa [mkFmtNode] using h2)]
            have h2' : ei = k := by simpa using h2
            subst h2'
            simp [mkFmtNode, hei]
          · rw [List.find?_cons_of_neg _ (by simpa [mkFmtNode] using h2)]
            rw [if_neg (by simpa [hei] using h2)]
            rfl

/-- Folding segments: earlier entries win, occurrences in order. -/
theorem lookup_foldl (segs : List RawSegment) (st : FmtState) (k : String)
    (hids : ∀ rn ∈ segs.flatMap segOccs, rn.id.isSome = true) :
    lookupKey (segs.foldl processSegment st).nodeMap k =
      (lookupKey st.nodeMap k).or
        ((((segs.flatMap segOccs).map mkKeyed).find? (fun n => n.id == k)).map
          (fun n => (n.id, n))) := by
  induction segs generalizing st with
  | nil => simp
  | cons seg rest ih =>
    have hall : ∀ rn ∈ segOccs seg ++ rest.flatMap segOccs,
        rn.id.isSome = true := by
      intro rn hrn
      apply hids
      rw [List.flatMap_cons]
      exact hrn
    rw [List.foldl_cons]
    rw [ih (processSegment st seg)
      (fun rn hrn => hall rn (List.mem_append.mpr (Or.inr hrn)))]
    rw [lookup_processSegment st seg k
      (fun rn hrn => hall rn (List.mem_append.mpr (Or.inl hrn)))]
    rw [List.flatMap_cons, List.map_append, List.find?_append,
      Option.or_assoc]
    congr 1
    cases ((segOccs seg).map mkKeyed).find? (fun n => n.id == k) <;> simp

theorem mapWF_processSegment {st : FmtState} (h : MapWF st.nodeMap)
    (seg : RawSegment) : MapWF (processSegment st seg).nodeMap := by
  rcases seg with ⟨os, orl, oe⟩
  cases os with
  | none => exact h
  | some s =>
    cases oe with
    | none => cases orl <;> exact h
    | some e =>
      cases orl with
      | none => exact h
      | some r => exact mapWF_insert_mk (mapWF_insert_mk h _ s) _ e

theorem mapWF_foldl (segs : List RawSegment) {st : FmtState}
    (h : MapWF st.nodeMap) :
    MapWF ((segs.foldl processSegment st).nodeMap) := by
  induction segs generalizing st with
  | nil => exact h
  | cons seg rest ih => exact ih (mapWF_processSegment h seg)

theorem keysNodup_processSegment {st : FmtState}
    (h : (st.nodeMap.map Prod.fst).Nodup) (seg : RawSegment) :
    ((processSegment st seg).nodeMap.map Prod.fst).Nodup := by
  rcases seg with ⟨os, orl, oe⟩
  cases os with
  | none => exact h
  | some s =>
    cases oe with
    | none => cases orl <;> exact h
    | some e =>
      cases orl with
      | none => exact h
      | some r => exact keysNodup_insert (keysNodup_insert h _ _) _ _

theorem keysNodup_foldl (segs : List RawSegment) {st : FmtState}
    (h : (st.nodeMap.map Prod.fst).Nodup) :
    (((segs.foldl processSegment st).nodeMap.map Prod.fst)).Nodup := by
  induction segs generalizing st with
  | nil => exact h
  | cons seg rest ih => exact ih (keysNodup_processSegment h seg)

theorem find?_map_snd (m : List (String × FmtNode)) (hwf : MapWF m)
    (k : String) :
    (m.map Prod.snd).find? (fun n => n.id == k) =
      (lookupKey m k).map Prod.snd := by
  induction m with
  | nil => rfl
  | cons p t ih =>
    have hp := hwf p (List.mem_cons_self _ _)
    have ht : MapWF t := fun q hq => hwf q (List.mem_cons_of_mem _ hq)
    rw [List.map_cons]
    unfold lookupKey
    by_cases h : (p.1 == k) = true
    · have hfind1 : List.find? (fun n => n.id == k)
          (p.2 :: t.map Prod.snd) = some p.2 :=
        List.find?_cons_of_pos _ (by rw [hp]; exact h)
      have hfind2 : List.find? (fun q => q.1 == k) (p :: t) = some p :=
        List.find?_cons_of_pos _ h
      rw [hfind1, hfind2]
      rfl
    · have hfind1 : List.find? (fun n => n.id == k)
          (p.2 :: t.map Prod.snd) =
          List.find? (fun n => n.id == k) (t.map Prod.snd) :=
        List.find?_cons_of_neg _ (by rw [hp]; exact h)
      have hfind2 : List.find? (fun q => q.1 == k) (p :: t) =
          List.find? (fun q => q.1 == k) t :=
        List.find?_cons_of_neg _ h
      rw [hfind1, hfind2]
      exact ih ht

/-- The endpoint occurrences of a path-shaped input, in processing
order. -/
def nodeOccs (d : NetData) : List RawNode := (segsOf d).flatMap segOccs

/-- The formatted node of each occurrence. -/
def fmtOccs (d : NetData) : List FmtNode := (nodeOccs d).map mkKeyed

/-- Reduction of the formatter on a present input value. -/
theorem formatNetworkForD3_some (d : NetData) :
    formatNetworkForD3 (some d) =
      if (d.nodesF.isSome && d.linksF.isSome) = true then d
      else { nodesF :=
               some ((runSegments (segsOf d)).nodeMap.map Prod.snd),
             linksF := some (runSegments (segsOf d)).links,
             paths := none } := rfl

/-- C8: the network formatter is idempotent — formatting a result again
returns it unchanged — and any input already carrying `nodes` and `links`
fields passes through unchanged. -/
theorem formatter_idempotent :
    (∀ x, formatNetworkForD3 (some (formatNetworkForD3 x)) =
      formatNetworkForD3 x) ∧
    (∀ d : NetData, d.nodesF.isSome = true → d.linksF.isSome = true →
      formatNetworkForD3 (some d) = d) := by
  have hpass : ∀ d : NetData, d.nodesF.isSome = true →
      d.linksF.isSome = true → formatNetworkForD3 (some d) = d := by
    intro d h1 h2
    rw [formatNetworkForD3_some, if_pos (by simp [h1, h2])]
  refine ⟨?_, hpass⟩
  intro x
  apply hpass
  · cases x with
    | none => rfl
    | some d =>
      rw [formatNetworkForD3_some]
      by_cases h : (d.nodesF.isSome && d.linksF.isSome) = true
      · rw [if_pos h]
        exact (Bool.and_eq_true _ _ ▸ h).1
      · rw [if_neg h]
        rfl
  · cases x with
    | none => rfl
    | some d =>
      rw [formatNetworkForD3_some]
      by_cases h : (d.nodesF.isSome && d.linksF.isSome) = true
      · rw [if_pos h]
        exact (Bool.and_eq_true _ _ ▸ h).2
      · rw [if_neg h]
        rfl

/-- A canonical empty node-link structure. -/
def canonND : NetData := ⟨some [], some [], none⟩

/-- C8 witness: idempotence at a concrete input and passthrough at a
concrete canonical input. -/
theorem formatter_idempotent_witness :
    formatNetworkForD3 (some (formatNetworkForD3 none)) =
      formatNetworkForD3 none ∧
    formatNetworkForD3 (some canonND) = canonND :=
  ⟨formatter_idempotent.1 none, formatter_idempotent.2 canonND rfl rfl⟩

/-- C7: on path-shaped input whose endpoints carry identifiers, every
identifier appears at most once among the output nodes, and the node
stored for an identifier is the formatted first occurrence of that
identifier — later occurrences with different payloads are dropped. -/
theorem formatter_dedup_first_wins (d : NetData)
    (hshape : d.nodesF = none ∨ d.linksF = none)
    (hids : ∀ rn ∈ nodeOccs d, rn.id.isSome = true) :
    (((formatNetworkForD3 (some d)).nodesF.getD []).map FmtNode.id).Nodup ∧
    ∀ k, ((formatNetworkForD3 (some d)).nodesF.getD []).find?
        (fun n => n.id == k) =
      (fmtOccs d).find? (fun n => n.id == k) := by
  have hb : ¬(d.nodesF.isSome && d.linksF.isSome) = true := by
    rcases hshape with h | h <;> simp [h]
  have hfmt : (formatNetworkForD3 (some d)).nodesF =
      some ((runSegments (segsOf d)).nodeMap.map Prod.snd) := by
    rw [formatNetworkForD3_some, if_neg hb]
  have hwf : MapWF (runSegments (segsOf d)).nodeMap :=
    mapWF_foldl _ (fun p hp => absurd hp (List.not_mem_nil p))
  constructor
  · rw [hfmt, Option.getD_some]
    have hkeys : (((runSegments (segsOf d)).nodeMap.map Prod.fst)).Nodup :=
      keysNodup_foldl _ List.nodup_nil
    have hmapeq :
        ((runSegments (segsOf d)).nodeMap.map Prod.snd).map FmtNode.id =
        (runSegments (segsOf d)).nodeMap.map Prod.fst := by
      rw [List.map_map]
      exact List.map_congr_left (fun p hp => hwf p hp)
    rw [hmapeq]
    exact hkeys
  · intro k
    rw [hfmt, Option.getD_some]
    rw [find?_map_snd _ hwf k]
    have hlk := lookup_foldl (segsOf d) emptyFmtState k hids
    rw [show runSegments (segsOf d) =
      (segsOf d).foldl processSegment emptyFmtState from rfl, hlk]
    rw [show lookupKey emptyFmtState.nodeMap k = none from rfl,
      Option.none_or, Option.map_map]
    show Option.map (Prod.snd ∘ fun n : FmtNode => (n.id, n))
      ((fmtOccs d).find? (fun n => n.id == k)) =
      (fmtOccs d).find? (fun n => n.id == k)
    cases (fmtOccs d).find? (fun n => n.id == k) <;> rfl

/-- Concrete formatter inputs: two segments referencing node id n1 with
different payloads. -/
def rnFirst : RawNode := ⟨some "n1", some "first", some ["User"], []⟩

def rnSecond : RawNode := ⟨some "n1", some "second", some ["User"], []⟩

def rnOther : RawNode := ⟨some "n2", some "other", some ["User"], []⟩

def rnThird : RawNode := ⟨some "n3", some "third", some ["User"], []⟩

def rrOne : RawRel := ⟨some "r1", some "KNOWS", []⟩

def rrTwo : RawRel := ⟨some "r2", some "KNOWS", []⟩

def segWOne : RawSegment := ⟨some rnFirst, some rrOne, some rnOther⟩

def segWTwo : RawSegment := ⟨some rnSecond, some rrTwo, some rnThird⟩

def dDup : NetData :=
  ⟨none, none, some [⟨some [segWOne]⟩, ⟨some [segWTwo]⟩]⟩

/-- C7 witness: the dedup theorem at the concrete duplicated input,
with the find equation instantiated at the duplicated identifier. -/
theorem formatter_dedup_first_wins_witness :
    (((formatNetworkForD3 (some dDup)).nodesF.getD []).map FmtNode.id).Nodup ∧
    ((formatNetworkForD3 (some dDup)).nodesF.getD []).find?
        (fun n => n.id == "n1") =
      (fmtOccs dDup).find? (fun n => n.id == "n1") :=
  ⟨(formatter_dedup_first_wins dDup (Or.inl rfl) (by decide)).1,
   (formatter_dedup_first_wins dDup (Or.inl rfl) (by decide)).2 "n1"⟩

/-- Every link recorded so far has both endpoints in the node map. -/
def StateOk (st : FmtState) : Prop :=
  ∀ l ∈ st.links, hasKey st.nodeMap l.source = true ∧
    hasKey st.nodeMap l.target = true

theorem stateOk_processSegment {st : FmtState} (h : StateOk st)
    (seg : RawSegment) : StateOk (processSegment st seg) := by
  rcases seg with ⟨os, orl, oe⟩
  cases os with
  | none => exact h
  | some s =>
    cases oe with
    | none => cases orl <;> exact h
    | some e =>
      cases orl with
      | none => exact h
      | some r =>
        intro l hl
        rcases List.mem_append.mp hl with hl | hl
        · obtain ⟨h1, h2⟩ := h l hl
          exact ⟨hasKey_insertIfAbsent_of _ _ _ _
              (hasKey_insertIfAbsent_of _ _ _ _ h1),
            hasKey_insertIfAbsent_of _ _ _ _
              (hasKey_insertIfAbsent_of _ _ _ _ h2)⟩
        · simp only [List.mem_singleton] at hl
          subst hl
          exact ⟨hasKey_insertIfAbsent_of _ _ _ _
              (hasKey_insert_self _ _ _),
            hasKey_insert_self _ _ _⟩

theorem stateOk_foldl (segs : List RawSegment) {st : FmtState}
    (h : StateOk st) : StateOk (segs.foldl processSegment st) := by
  induction segs generalizing st with
  | nil => exact h
  | cons seg rest ih => exact ih (stateOk_processSegment h seg)

theorem exists_node_of_hasKey {m : List (String × FmtNode)}
    (hwf : MapWF m) {k : String} (h : hasKey m k = true) :
    ∃ n ∈ m.map Prod.snd, n.id = k := by
  unfold hasKey lookupKey at h
  cases hx : m.find? (fun q => q.1 == k) with
  | none => rw [hx] at h; simp at h
  | some p =>
    have hpm := List.mem_of_find?_eq_some hx
    have hpk : (p.1 == k) = true :=
      List.find?_some (p := fun q : String × FmtNode => q.1 == k) hx
    refine ⟨p.2, List.mem_map_of_mem _ hpm, ?_⟩
    rw [hwf p hpm]
    simpa using hpk

/-- Both formatters never dangle: each link's endpoints were registered
before the link was appended. -/
theorem runSegments_links_closed (segs : List RawSegment) :
    ∀ l ∈ (runSegments segs).links,
      (∃ n ∈ (runSegments segs).nodeMap.map Prod.snd, n.id = l.source) ∧
      (∃ n ∈ (runSegments segs).nodeMap.map Prod.snd, n.id = l.target) := by
  intro l hl
  have hok : StateOk (runSegments segs) :=
    stateOk_foldl segs (fun l' hl' => absurd hl' (List.not_mem_nil l'))
  have hwf : MapWF (runSegments segs).nodeMap :=
    mapWF_foldl _ (fun p hp => absurd hp (List.not_mem_nil p))
  obtain ⟨h1, h2⟩ := hok l hl
  exact ⟨exists_node_of_hasKey hwf h1, exists_node_of_hasKey hwf h2⟩

/-- C10: in the output of `formatNetworkForD3` on path-shaped input and
of `formatPathData`, every link's source and target identifiers name a
node present in the output nodes. -/
theorem formatter_links_closed (d : NetData) (pd : Option PathData)
    (hshape : d.nodesF = none ∨ d.linksF = none) :
    (∀ l ∈ (formatNetworkForD3 (some d)).linksF.getD [],
      (∃ n ∈ (formatNetworkForD3 (some d)).nodesF.getD [],
        n.id = l.source) ∧
      (∃ n ∈ (formatNetworkForD3 (some d)).nodesF.getD [],
        n.id = l.target)) ∧
    (∀ l ∈ (formatPathData pd).links,
      (∃ n ∈ (formatPathData pd).nodes, n.id = l.source) ∧
      (∃ n ∈ (formatPathData pd).nodes, n.id = l.target)) := by
  have hb : ¬(d.nodesF.isSome && d.linksF.isSome) = true := by
    rcases hshape with h | h <;> simp [h]
  constructor
  · have hfmt : formatNetworkForD3 (some d) =
        { nodesF := some ((runSegments (segsOf d)).nodeMap.map Prod.snd),
          linksF := some (runSegments (segsOf d)).links,
          paths := none } := by
      rw [formatNetworkForD3_some, if_neg hb]
    rw [hfmt]
    exact runSegments_links_closed (segsOf d)
  · cases pd with
    | none => intro l hl; exact absurd hl (List.not_mem_nil l)
    | some pdv =>
      rcases pdv with ⟨op, olen⟩
      cases op with
      | none => intro l hl; exact absurd hl (List.not_mem_nil l)
      | some p =>
        exact runSegments_links_closed (p.segments.getD [])

/-- Concrete path-shaped inputs for the no-dangling witness. -/
def dLinks : NetData := ⟨none, none, some [⟨some [segWOne]⟩]⟩

def pdLinks : PathData := ⟨some ⟨some [segWTwo]⟩, some 1⟩

def linkWOne : FmtLink := ⟨"n1", "n2", "KNOWS", "r1", []⟩

def linkWTwo : FmtLink := ⟨"n1", "n3", "KNOWS", "r2", []⟩

/-- C10 witness at concrete inputs and links. -/
theorem formatter_links_closed_witness :
    ((∃ n ∈ (formatNetworkForD3 (some dLinks)).nodesF.getD [],
        n.id = linkWOne.source) ∧
     (∃ n ∈ (formatNetworkForD3 (some dLinks)).nodesF.getD [],
        n.id = linkWOne.target)) ∧
    ((∃ n ∈ (formatPathData (some pdLinks)).nodes,
        n.id = linkWTwo.source) ∧
     (∃ n ∈ (formatPathData (some pdLinks)).nodes,
        n.id = linkWTwo.target)) :=
  ⟨(formatter_links_closed dLinks (some pdLinks) (Or.inl rfl)).1 linkWOne
      (by decide),
   (formatter_links_closed dLinks (some pdLinks) (Or.inl rfl)).2 linkWTwo
      (by decide)⟩

/-! ### Network slice

`neo4jService.getNetworkData` limits `MATCH (u:User)` to `$limit` rows,
optionally matches `(u)-[r]-(related:User)` with `id(related) < id(u)`,
and returns the distinct users and distinct relationships, mapped to
node and link records. -/

structure NetNode where
  id : Nat
  label : String
  group : Option String
deriving DecidableEq, Repr

structure NetLink where
  source : Nat
  target : Nat
  ltype : String
  id : Nat
deriving DecidableEq, Repr

def isUserNode (n : Node) : Bool := n.labels.contains "User"

/-- The users kept by `WITH u LIMIT toInteger($limit)`. -/
def limitedUsers (g : Graph) (limit : Nat) : List Node :=
  (g.nodes.filter isUserNode).take limit

/-- Whether `OPTIONAL MATCH (u)-[r]-(related:User) WHERE id(related) <
id(u)` matches edge `e` for some limited user `u`. -/
def relMatches (g : Graph) (us : List Node) (e : Edge) : Bool :=
  us.any (fun u =>
    (e.src == u.nid && decide (e.dst < u.nid) && isUserNid g e.dst) ||
    (e.dst == u.nid && decide (e.src < u.nid) && isUserNid g e.src))

/-- `neo4jService.getNetworkData`, returning the node and link lists. -/
def getNetworkData (g : Graph) (limit : Nat) :
    List NetNode × List NetLink :=
  ((limitedUsers g limit).map
     (fun u => ⟨u.nid, u.name, u.labels.head?⟩),
   (g.edges.filter (relMatches g (limitedUsers g limit))).map
     (fun e => ⟨e.src, e.dst, e.etype, e.eid⟩))

/-- A graph whose node list is not ordered by internal id, with a mutual
pair of KNOWS edges between two of the users. -/
def gSlice : Graph :=
  ⟨[⟨2, ["User"], "b", "Beth"⟩, ⟨3, ["User"], "c", "Cara"⟩,
    ⟨1, ["User"], "a", "Ann"⟩],
   [⟨1, "KNOWS", 1, 2, none⟩, ⟨2, "KNOWS", 2, 3, none⟩,
    ⟨3, "KNOWS", 3, 2, none⟩], 4⟩

/-- C9 counterexample: with `limit = 2` on `gSlice` the returned nodes
are 2 and 3, yet one returned link has source 1, a node outside the
slice, and the undirected pair (2, 3) contributes two links. -/
theorem getNetworkData_cex :
    (getNetworkData gSlice 2).1.map NetNode.id = [2, 3] ∧
    (getNetworkData gSlice 2).2.map (fun l => (l.source, l.target)) =
      [(1, 2), (2, 3), (3, 2)] ∧
    ¬(1 : Nat) ∈ (getNetworkData gSlice 2).1.map NetNode.id ∧
    (getNetworkData gSlice 2).2.countP
      (fun l => (l.source == 2 && l.target == 3) ||
        (l.source == 3 && l.target == 2)) = 2 := by
  decide

/-- C9 (amended): `getNetworkData` returns at most `limit` user nodes;
every returned link is incident to at least one returned node (its other
endpoint, of smaller internal id, may lie outside the slice); and no
relationship is reported twice — the link identifiers are distinct
whenever the graph's edge identifiers are. -/
theorem getNetworkData_bounds (g : Graph) (limit : Nat) :
    (getNetworkData g limit).1.length ≤ limit ∧
    (∀ l ∈ (getNetworkData g limit).2,
      l.source ∈ (getNetworkData g limit).1.map NetNode.id ∨
      l.target ∈ (getNetworkData g limit).1.map NetNode.id) ∧
    ((g.edges.map Edge.eid).Nodup →
      ((getNetworkData g limit).2.map NetLink.id).Nodup) := by
  refine ⟨?_, ?_, ?_⟩
  · show ((limitedUsers g limit).map _).length ≤ limit
    rw [List.length_map]
    exact List.length_take_le _ _
  · intro l hl
    rcases List.mem_map.mp hl with ⟨e, he, rfl⟩
    have hm := List.of_mem_filter he
    unfold relMatches at hm
    rw [List.any_eq_true] at hm
    rcases hm with ⟨u, hu, hcase⟩
    rw [Bool.or_eq_true] at hcase
    have hmem : u.nid ∈ (getNetworkData g limit).1.map NetNode.id := by
      show u.nid ∈ ((limitedUsers g limit).map _).map NetNode.id
      rw [List.map_map]
      exact List.mem_map_of_mem _ hu
    rcases hcase with hc | hc
    · left
      simp only [Bool.and_eq_true, beq_iff_eq] at hc
      show e.src ∈ _
      rw [hc.1.1]
      exact hmem
    · right
      simp only [Bool.and_eq_true, beq_iff_eq] at hc
      show e.dst ∈ _
      rw [hc.1.1]
      exact hmem
  · intro hnd
    show (((g.edges.filter _).map _).map NetLink.id).Nodup
    rw [List.map_map]
    have hsub : (g.edges.filter
        (relMatches g (limitedUsers g limit))).Sublist g.edges :=
      List.filter_sublist _
    exact hnd.sublist (hsub.map _)

/-- C9 witness: the amended bounds at the concrete sliced graph, with
the dangling link as the concrete link. -/
theorem getNetworkData_bounds_witness :
    (getNetworkData gSlice 2).1.length ≤ 2 ∧
    ((1 : Nat) ∈ (getNetworkData gSlice 2).1.map NetNode.id ∨
      (2 : Nat) ∈ (getNetworkData gSlice 2).1.map NetNode.id) ∧
    ((getNetworkData gSlice 2).2.map NetLink.id).Nodup :=
  ⟨(getNetworkData_bounds gSlice 2).1,
   (getNetworkData_bounds gSlice 2).2.1 ⟨1, 2, "KNOWS", 1⟩ (by decide),
   (getNetworkData_bounds gSlice 2).2.2 (by decide)⟩

end StoryBridge
